import Mathlib

/-!
# Verification of the LLM-Document-Parser extraction engine

A shallow embedding of the document classification / structured-extraction
engine of `src/document_parser.py` (class DocumentParser), together with
theorems settling the specification claims about it.

Modelling conventions:
* Python strings are modelled as `List Char` (with `String` wrappers at the
  API boundary).  Python indices are character indices, as in `List Char`.
* The Unicode-aware character predicates of Python (`\s`, `\d`, `\w`,
  `str.strip`, case folding under `re.IGNORECASE`) are modelled on the
  character repertoire the program's own data exercises: the full whitespace
  set of Python's `str` regexes is carried over explicitly, while `\d` / `\w`
  and case folding are taken over their ASCII fragment.
* External libraries (scikit-learn estimators, spaCy, phonenumbers, joblib,
  the PDF/OCR text extractors) are opaque collaborators: their state is a
  type parameter and their calls are fields of an environment record, fallible
  ones returning `Except String _` (a raised exception is `.error msg`).
  All control flow around those calls is translated from the source.
* Python's `dict` is an insertion-ordered association list; `list(set(xs))`
  is modelled as first-occurrence deduplication (the claims treat that order
  as insignificant).
* Recursive scanners are defined with an explicit fuel argument (initialised
  from the input length) so that every definition is executable by `decide`.
-/

namespace DocParse

/-! ## Character predicates -/

/-- Python's whitespace set: the characters matched by `\s` in `str` regexes
and stripped by `str.strip()`. -/
def isPySpace (c : Char) : Bool :=
  c = ' ' || c = '\t' || c = '\n' || c = '\r' || c = '\x0b' || c = '\x0c' ||
  c = '\x1c' || c = '\x1d' || c = '\x1e' || c = '\x1f' || c = '\x85' ||
  c = '\xa0' || c = '\u1680' ||
  (('\u2000' : Char) ≤ c && c ≤ ('\u200a' : Char)) ||
  c = '\u2028' || c = '\u2029' || c = '\u202f' || c = '\u205f' || c = '\u3000'

/-- `\d` (ASCII fragment). -/
def isPyDigit (c : Char) : Bool := '0' ≤ c && c ≤ '9'

/-- `\w` (ASCII fragment): letters, digits and underscore. -/
def isPyWord (c : Char) : Bool :=
  ('a' ≤ c && c ≤ 'z') || ('A' ≤ c && c ≤ 'Z') || isPyDigit c || c = '_'

/-! ## Python string primitives -/

/-- `str.replace(pat, rep)`: replace every non-overlapping occurrence of
`pat`, scanning left to right.  Fuel-driven; `pyReplace` supplies enough
fuel for the whole input. -/
def pyReplaceGo (pat rep : List Char) : Nat → List Char → List Char
  | _, [] => []
  | 0, s => s
  | fuel + 1, c :: cs =>
    if pat ≠ [] ∧ pat.isPrefixOf (c :: cs) then
      rep ++ pyReplaceGo pat rep fuel (List.drop pat.length (c :: cs))
    else
      c :: pyReplaceGo pat rep fuel cs

def pyReplace (pat rep : List Char) (s : List Char) : List Char :=
  pyReplaceGo pat rep s.length s

/-- `str.strip()` from the left. -/
def stripLeft (s : List Char) : List Char := s.dropWhile isPySpace

/-- `str.strip()`: remove leading and trailing Python whitespace. -/
def pyStrip (s : List Char) : List Char :=
  (stripLeft (stripLeft s).reverse).reverse

/-- `str.split()` (no argument): split on runs of whitespace, discarding
empty pieces. -/
def splitWsAux : List Char → List (List Char)
  | [] => [[]]
  | c :: cs =>
    let r := splitWsAux cs
    if isPySpace c then [] :: r
    else (c :: r.headD []) :: r.tail

def splitWs (s : List Char) : List (List Char) :=
  (splitWsAux s).filter (fun w => w ≠ [])

/-- `str.find(sub)`: index of the first occurrence, `none` when absent. -/
def pyFind : List Char → List Char → Option Nat
  | _, [] => some 0
  | [], _ :: _ => none
  | c :: cs, sub =>
    if sub.isPrefixOf (c :: cs) then some 0
    else (pyFind cs sub).map (· + 1)

/-! ## The text cleaner (`DocumentParser.clean_text`)

`clean_text` performs, in order:
`re.sub(r'Page\s+\d+\s+of\s+\d+', '', text)`,
`re.sub(r'Confidential|Proprietary', '', text)`,
`re.sub(r'\s+', ' ', text)`, `re.sub(r'�', '', text)`, the quote
replacements `'""' -> '"'` and `"''" -> "'"` (each preceded by an identity
replacement and applied twice, as in the source), the dash replacements
`'–' -> '-'`, `'—' -> '-'`, and a final `strip()`. -/

/-- Greedy match of `Page\s+\d+\s+of\s+\d+` at the head of the list,
returning the suffix after the match.  For this pattern the regex
backtracking semantics coincide with maximal munch, because consecutive
subpatterns match disjoint character classes. -/
def pageMatch (s : List Char) : Option (List Char) := do
  let s ← if ['P', 'a', 'g', 'e'].isPrefixOf s then
            some (s.drop 4) else none
  let s ← if s.headD 'x' |> isPySpace then some (s.dropWhile isPySpace) else none
  let s ← if s.headD 'x' |> isPyDigit then some (s.dropWhile isPyDigit) else none
  let s ← if s.headD 'x' |> isPySpace then some (s.dropWhile isPySpace) else none
  let s ← if ['o', 'f'].isPrefixOf s then some (s.drop 2) else none
  let s ← if s.headD 'x' |> isPySpace then some (s.dropWhile isPySpace) else none
  let s ← if s.headD 'x' |> isPyDigit then some (s.dropWhile isPyDigit) else none
  some s

/-- `re.sub(r'Page\s+\d+\s+of\s+\d+', '', text)`. -/
def removePageGo : Nat → List Char → List Char
  | _, [] => []
  | 0, s => s
  | fuel + 1, c :: cs =>
    match pageMatch (c :: cs) with
    | some rest => removePageGo fuel rest
    | none => c :: removePageGo fuel cs

def removePage (s : List Char) : List Char := removePageGo s.length s

/-- `re.sub(r'Confidential|Proprietary', '', text)`. -/
def removeConfGo : Nat → List Char → List Char
  | _, [] => []
  | 0, s => s
  | fuel + 1, c :: cs =>
    if "Confidential".toList.isPrefixOf (c :: cs) then
      removeConfGo fuel ((c :: cs).drop 12)
    else if "Proprietary".toList.isPrefixOf (c :: cs) then
      removeConfGo fuel ((c :: cs).drop 11)
    else c :: removeConfGo fuel cs

def removeConf (s : List Char) : List Char := removeConfGo s.length s

/-- `re.sub(r'\s+', ' ', text)`: collapse every whitespace run to one space. -/
def collapseWsGo : Nat → List Char → List Char
  | _, [] => []
  | 0, s => s
  | fuel + 1, c :: cs =>
    if isPySpace c then ' ' :: collapseWsGo fuel (cs.dropWhile isPySpace)
    else c :: collapseWsGo fuel cs

def collapseWs (s : List Char) : List Char := collapseWsGo s.length s

/-- `re.sub(r'�', '', text)`: drop U+FFFD replacement characters. -/
def removeFFFD (s : List Char) : List Char := s.filter (fun c => c ≠ '\ufffd')

/-- The full cleaning pipeline on character lists (the body of `clean_text`
after its empty-input guard), innermost step first: page footers, banned
words, whitespace collapse, replacement-character removal, the three
double-quote replaces, the three apostrophe replaces, the two dash
replaces, and the final strip. -/
def cleanPipe (s : List Char) : List Char :=
  pyStrip
    (pyReplace ['\u2014'] ['-']
      (pyReplace ['\u2013'] ['-']
        (pyReplace ['\'', '\''] ['\'']
          (pyReplace ['\'', '\''] ['\'']
            (pyReplace ['\''] ['\'']
              (pyReplace ['"', '"'] ['"']
                (pyReplace ['"', '"'] ['"']
                  (pyReplace ['"'] ['"']
                    (removeFFFD
                      (collapseWs
                        (removeConf
                          (removePage s))))))))))))

/-- `DocumentParser.clean_text`. -/
def clean_text (t : String) : String :=
  if t = "" then "" else String.mk (cleanPipe t.toList)

/-! ## A regular-expression engine with Python `re` semantics

Backtracking matcher covering exactly the constructs used by the source's
patterns: literals, character classes, alternation (left preference),
greedy/lazy counted repetition, one level of numbered groups, lookahead
`(?=...)`, word boundary `\b` and end anchor `\Z`.  `re.IGNORECASE` is the
`ign` flag; `.` only occurs under `re.DOTALL` in the source, so `dot`
matches every character. -/

inductive CItem where
  | ch (c : Char)
  | range (lo hi : Char)
  | digit
  | word
  | space
  deriving DecidableEq, Repr

structure CCls where
  neg : Bool
  items : List CItem
  deriving DecidableEq, Repr

inductive RE where
  | eps
  | lit (c : Char)
  | cls (cc : CCls)
  | dot
  | seq (a b : RE)
  | alt (a b : RE)
  | rep (lo : Nat) (hi : Option Nat) (greedy : Bool) (a : RE)
  | grp (i : Nat) (a : RE)
  | look (a : RE)
  | wordB
  | endZ
  deriving Repr

def itemTest : CItem → Char → Bool
  | .ch c, c' => c = c'
  | .range lo hi, c' => lo ≤ c' && c' ≤ hi
  | .digit, c' => isPyDigit c'
  | .word, c' => isPyWord c'
  | .space, c' => isPySpace c'

/-- Class membership; under IGNORECASE a character also matches through its
(ASCII) case variants, and negated classes exclude all case variants. -/
def ccTest (ign : Bool) (cc : CCls) (c : Char) : Bool :=
  let base := fun c' => cc.items.any (fun it => itemTest it c')
  let m := base c || (ign && (base c.toLower || base c.toUpper))
  if cc.neg then !m else m

def litTest (ign : Bool) (p c : Char) : Bool :=
  if ign then p.toLower = c.toLower else p = c

/-- Group captures: (index, start, stop), most recent first. -/
abbrev Caps := List (Nat × Nat × Nat)

/-- One continuation-passing backtracking step.  The continuation receives
the position after the current subpattern and the captures so far. -/
def reM (ign : Bool) (t : List Char) :
    Nat → RE → Nat → Caps → (Nat → Caps → Option (Nat × Caps)) → Option (Nat × Caps)
  | 0, _, _, _, _ => none
  | fuel + 1, re, pos, caps, k =>
    match re with
    | .eps => k pos caps
    | .lit c =>
      match t[pos]? with
      | some c' => if litTest ign c c' then k (pos + 1) caps else none
      | none => none
    | .cls cc =>
      match t[pos]? with
      | some c' => if ccTest ign cc c' then k (pos + 1) caps else none
      | none => none
    | .dot =>
      match t[pos]? with
      | some _ => k (pos + 1) caps
      | none => none
    | .seq a b => reM ign t fuel a pos caps (fun p cp => reM ign t fuel b p cp k)
    | .alt a b =>
      match reM ign t fuel a pos caps k with
      | some r => some r
      | none => reM ign t fuel b pos caps k
    | .rep lo hi greedy a =>
      if hi = some 0 then (if lo = 0 then k pos caps else none)
      else
        let tryMore := fun (_ : Unit) =>
          reM ign t fuel a pos caps (fun p cp =>
            if p = pos ∧ lo = 0 then none
            else reM ign t fuel (.rep (lo - 1) (hi.map (· - 1)) greedy a) p cp k)
        if lo > 0 then tryMore ()
        else if greedy then
          match tryMore () with
          | some r => some r
          | none => k pos caps
        else
          match k pos caps with
          | some r => some r
          | none => tryMore ()
    | .grp i a => reM ign t fuel a pos caps (fun p cp => k p ((i, pos, p) :: cp))
    | .look a =>
      match reM ign t fuel a pos caps (fun p cp => some (p, cp)) with
      | some (_, cp) => k pos cp
      | none => none
    | .wordB =>
      let w1 := match pos with
        | 0 => false
        | p + 1 => match t[p]? with
          | some c => isPyWord c
          | none => false
      let w2 := match t[pos]? with
        | some c => isPyWord c
        | none => false
      if w1 ≠ w2 then k pos caps else none
    | .endZ => if pos = t.length then k pos caps else none

def reSize : RE → Nat
  | .eps => 1
  | .lit _ => 1
  | .cls _ => 1
  | .dot => 1
  | .seq a b => reSize a + reSize b + 1
  | .alt a b => reSize a + reSize b + 1
  | .rep _ _ _ a => reSize a + 1
  | .grp _ a => reSize a + 1
  | .look a => reSize a + 1
  | .wordB => 1
  | .endZ => 1

/-- Try to match `re` anchored at position `pos`, returning end position and
captures of the first (leftmost-preference) match. -/
def reMatchAt (ign : Bool) (re : RE) (t : List Char) (pos : Nat) : Option (Nat × Caps) :=
  reM ign t ((reSize re + 2) * (t.length + 8) * 2) re pos [] (fun p cp => some (p, cp))

/-- Leftmost match at or after `start` (Python scanning). -/
def reSearch (ign : Bool) (re : RE) (t : List Char) (start : Nat) :
    Option (Nat × Nat × Caps) :=
  (List.range' start (t.length + 1 - start)).findSome? (fun s =>
    (reMatchAt ign re t s).map (fun ec => (s, ec.1, ec.2)))

/-- A value yielded by `re.findall`: the whole match (no groups), the single
group (one group), or the tuple of groups (two or more groups). -/
inductive FindVal where
  | str (s : String)
  | tup (ss : List String)
  deriving DecidableEq, Repr

def capGet (caps : Caps) (i : Nat) : Option (Nat × Nat) :=
  (caps.find? (fun x => x.1 = i)).map (fun x => x.2)

def subStr (t : List Char) (s e : Nat) : String := String.mk ((t.drop s).take (e - s))

def groupStr (t : List Char) (caps : Caps) (i : Nat) : String :=
  match capGet caps i with
  | some se => subStr t se.1 se.2
  | none => ""

def matchVal (t : List Char) (groups : Nat) (s e : Nat) (caps : Caps) : FindVal :=
  if groups = 0 then .str (subStr t s e)
  else if groups = 1 then .str (groupStr t caps 1)
  else .tup ((List.range' 1 groups).map (groupStr t caps))

def reFindallGo (ign : Bool) (re : RE) (groups : Nat) (t : List Char) :
    Nat → Nat → List FindVal
  | 0, _ => []
  | fuel + 1, pos =>
    match reSearch ign re t pos with
    | none => []
    | some (s, e, caps) =>
      matchVal t groups s e caps ::
        reFindallGo ign re groups t fuel (if e > s then e else e + 1)

/-- `re.findall(pattern, text, flags)` for a pattern with `groups` numbered
groups. -/
def reFindall (ign : Bool) (re : RE) (groups : Nat) (t : List Char) : List FindVal :=
  reFindallGo ign re groups t (t.length + 1) 0

/-! ### Pattern construction helpers -/

def reStr (s : String) : RE := s.toList.foldr (fun c r => .seq (.lit c) r) .eps

def reAlts : List RE → RE
  | [] => .eps
  | [r] => r
  | r :: rs => .alt r (reAlts rs)

def cc (items : List CItem) : RE := .cls ⟨false, items⟩
def ncc (items : List CItem) : RE := .cls ⟨true, items⟩
def clsD : RE := cc [.digit]
def clsS : RE := cc [.space]
def clsW : RE := cc [.word]
def star (a : RE) : RE := .rep 0 none true a
def plus (a : RE) : RE := .rep 1 none true a
def opt (a : RE) : RE := .rep 0 (some 1) true a
def lazyStar (a : RE) : RE := .rep 0 none false a
def repN (lo hi : Nat) (a : RE) : RE := .rep lo (some hi) true a
def repAtLeast (n : Nat) (a : RE) : RE := .rep n none true a
def g1 (a : RE) : RE := .grp 1 a

def reSeqs : List RE → RE
  | [] => .eps
  | [r] => r
  | r :: rs => .seq r (reSeqs rs)

/-! ## The pattern library (`DocumentParser.__init__`, `self.patterns`)

Each entry records the number of numbered groups of the source regex, which
determines the shape of the `re.findall` values. -/

structure Pat where
  groups : Nat
  re : RE

/-- The date pattern: one-or-two digits, slash-or-dash, one-or-two digits,
slash-or-dash, two-to-four digits, all in one group. -/
def dateBody : RE :=
  g1 (reSeqs [repN 1 2 clsD, cc [.ch '/', .ch '-'], repN 1 2 clsD,
              cc [.ch '/', .ch '-'], repN 2 4 clsD])

/-- `(\$\d+(?:\.\d{2})?)` -/
def moneyBody : RE :=
  g1 (reSeqs [.lit '$', plus clsD, opt (reSeqs [.lit '.', repN 2 2 clsD])])

/-- `([A-Z0-9-]+)` -/
def idBody : RE := g1 (plus (cc [.range 'A' 'Z', .range '0' '9', .ch '-']))

/-- `([A-Z][a-z]+)` -/
def nameBody : RE :=
  g1 (reSeqs [cc [.range 'A' 'Z'], plus (cc [.range 'a' 'z'])])

/-- `:?\s*` -/
def colonWs : RE := reSeqs [opt (.lit ':'), star clsS]

/-- `([a-zA-Z0-9._%+-]+@[a-zA-Z0-9.-]+\.[a-zA-Z]{2,})` -/
def emailBody : RE :=
  g1 (reSeqs
    [plus (cc [.range 'a' 'z', .range 'A' 'Z', .range '0' '9', .ch '.', .ch '_',
               .ch '%', .ch '+', .ch '-']),
     .lit '@',
     plus (cc [.range 'a' 'z', .range 'A' 'Z', .range '0' '9', .ch '.', .ch '-']),
     .lit '.',
     repAtLeast 2 (cc [.range 'a' 'z', .range 'A' 'Z'])])

/-- `(\d+\s+[\w\s]+,?\s*[A-Za-z\s]+,?\s*[A-Z]{2}\s*\d{5})` -/
def addressBody : RE :=
  g1 (reSeqs
    [plus clsD, plus clsS, plus (cc [.word, .space]), opt (.lit ','), star clsS,
     plus (cc [.range 'A' 'Z', .range 'a' 'z', .space]), opt (.lit ','), star clsS,
     repN 2 2 (cc [.range 'A' 'Z']), star clsS, repN 5 5 clsD])

/-- `([A-Za-z0-9\s,&]+)` -/
def partyBody : RE :=
  plus (cc [.range 'A' 'Z', .range 'a' 'z', .range '0' '9', .space, .ch ',', .ch '&'])

def invoiceTable : List (String × Pat) :=
  [("invoice_number", ⟨1, reSeqs [reAlts [reStr "invoice", reStr "inv"],
      opt (.lit '.'), star clsS, opt (.lit '#'), star clsS, idBody]⟩),
   ("date", ⟨1, reSeqs [reAlts [reStr "date", reStr "invoice date"], colonWs, dateBody]⟩),
   ("due_date", ⟨1, reSeqs [reAlts [reStr "due date", reStr "due"], colonWs, dateBody]⟩),
   ("total_amount", ⟨1, reSeqs [reAlts [reStr "total", reStr "amount due", reStr "balance"],
      colonWs, moneyBody]⟩),
   ("tax", ⟨1, reSeqs [reAlts [reStr "tax", reStr "vat"], colonWs, moneyBody]⟩),
   ("first_name", ⟨1, reSeqs [reAlts [reStr "first name", reStr "given name"],
      colonWs, nameBody]⟩),
   ("last_name", ⟨1, reSeqs [reAlts [reStr "last name", reStr "surname", reStr "family name"],
      colonWs, nameBody]⟩),
   ("email", ⟨1, emailBody⟩),
   ("product_id", ⟨1, reSeqs [reAlts [reStr "product id", reStr "product code", reStr "item #"],
      colonWs, idBody]⟩),
   ("qty", ⟨1, reSeqs [reAlts [reStr "quantity", reStr "qty"], colonWs, g1 (plus clsD)]⟩),
   ("amount", ⟨1, reSeqs [reAlts [reStr "amount", reStr "price"], colonWs, moneyBody]⟩),
   ("invoice_date", ⟨1, reSeqs [reAlts [reStr "invoice date", reStr "date issued"],
      colonWs, dateBody]⟩),
   ("address", ⟨1, addressBody⟩),
   ("city", ⟨1, reSeqs [reStr "city", colonWs,
      g1 (plus (cc [.range 'A' 'Z', .range 'a' 'z', .space])),
      .look (reAlts [reSeqs [star clsS, cc [.ch ',']],
                     reSeqs [star clsS, repN 2 2 (cc [.range 'A' 'Z'])]])]⟩),
   ("stock_code", ⟨1, reSeqs [reAlts [reStr "stock code", reStr "sku"], colonWs, idBody]⟩),
   ("job", ⟨1, reSeqs [reAlts [reStr "job", reStr "project", reStr "work order"],
      colonWs, idBody]⟩)]

def receiptTable : List (String × Pat) :=
  [("date", ⟨1, reSeqs [reStr "date", colonWs, dateBody]⟩),
   ("total", ⟨1, reSeqs [reAlts [reStr "total", reStr "amount"], colonWs, moneyBody]⟩),
   ("payment_method", ⟨1, reSeqs [reAlts [reStr "payment method", reStr "paid with"],
      colonWs, g1 (plus (cc [.range 'A' 'Z', .range 'a' 'z', .space]))]⟩)]

def contractTable : List (String × Pat) :=
  [("contract_id", ⟨1, reSeqs [reAlts [reStr "contract", reStr "agreement"],
      star clsS, opt (.lit '#'), star clsS, idBody]⟩),
   ("date", ⟨1, reSeqs [reAlts [reStr "date", reStr "effective date"], colonWs, dateBody]⟩),
   ("parties", ⟨2, reSeqs [reAlts [reStr "between", reStr "parties"], colonWs,
      .grp 1 partyBody, plus clsS, reStr "and", plus clsS, .grp 2 partyBody]⟩),
   ("amount", ⟨1, reSeqs [reAlts [reStr "amount", reStr "value"], colonWs, moneyBody]⟩),
   ("term", ⟨1, reSeqs [reAlts [reStr "term", reStr "duration"], colonWs,
      g1 (reSeqs [plus clsD, plus clsS,
        reAlts [reSeqs [reStr "year", opt (.lit 's')],
                reSeqs [reStr "month", opt (.lit 's')],
                reSeqs [reStr "day", opt (.lit 's')]]])]⟩),
   ("buyer", ⟨1, reSeqs [reAlts [reStr "buyer", reStr "client"], colonWs, .grp 1 partyBody]⟩),
   ("supplier", ⟨1, reSeqs [reAlts [reStr "supplier", reStr "vendor"], colonWs,
      .grp 1 partyBody]⟩)]

/-- `[-.\s]?` -/
def phoneSep : RE := opt (cc [.ch '-', .ch '.', .space])

/-- The phone pattern: optional plus sign, one-to-three digits, optional
separator, optional parenthesis, three digits, optional parenthesis,
separator, three digits, separator, four digits, all in one group. -/
def phoneBody : RE :=
  g1 (reSeqs [opt (.lit '+'), repN 1 3 clsD, phoneSep, opt (.lit '('),
      repN 3 3 clsD, opt (.lit ')'), phoneSep, repN 3 3 clsD, phoneSep, repN 4 4 clsD])

/-- `(\$\d+(?:,\d{3})*(?:\.\d{2})?)` -/
def currencyBody : RE :=
  g1 (reSeqs [.lit '$', plus clsD, star (reSeqs [.lit ',', repN 3 3 clsD]),
      opt (reSeqs [.lit '.', repN 2 2 clsD])])

def contactTable : List (String × Pat) :=
  [("email", ⟨1, emailBody⟩),
   ("phone", ⟨1, phoneBody⟩),
   ("website", ⟨1, g1 (reSeqs [reStr "http", opt (.lit 's'), reStr "://",
      plus (ncc [.space])])⟩),
   ("name", ⟨1, reSeqs [reAlts [reStr "name", reStr "contact"], colonWs,
      g1 (reSeqs [cc [.range 'A' 'Z'], plus (cc [.range 'a' 'z']), plus clsS,
                  cc [.range 'A' 'Z'], plus (cc [.range 'a' 'z'])])]⟩),
   ("company", ⟨1, reSeqs [reAlts [reStr "company", reStr "firm", reStr "organization"],
      colonWs, g1 (plus (cc [.range 'A' 'Z', .range 'a' 'z', .range '0' '9', .space,
                             .ch '&', .ch '.', .ch ',']))]⟩),
   ("address", ⟨1, addressBody⟩),
   ("zip_code", ⟨0, reSeqs [.wordB, repN 5 5 clsD,
      opt (reSeqs [.lit '-', repN 4 4 clsD]), .wordB]⟩)]

/-- `(\d+(?:\.\d+)?%)` -/
def percentBody : RE :=
  g1 (reSeqs [plus clsD, opt (reSeqs [.lit '.', plus clsD]), .lit '%'])

def generalTable : List (String × Pat) :=
  [("currency", ⟨1, currencyBody⟩),
   ("percentage", ⟨1, percentBody⟩),
   ("date", ⟨1, dateBody⟩)]

/-- `self.patterns`, in source order. -/
def patternsTable : List (String × List (String × Pat)) :=
  [("invoice", invoiceTable), ("receipt", receiptTable), ("contract", contractTable),
   ("contact", contactTable), ("general", generalTable)]

/-! ## `DocumentParser.extract_with_patterns` -/

/-- First-occurrence deduplication, modelling `list(set(xs))` (the source
treats the resulting order as insignificant). -/
def dedupFirstAux {α : Type} [DecidableEq α] : List α → List α → List α
  | _, [] => []
  | seen, x :: xs =>
    if x ∈ seen then dedupFirstAux seen xs else x :: dedupFirstAux (x :: seen) xs

def dedupFirst {α : Type} [DecidableEq α] (l : List α) : List α := dedupFirstAux [] l

/-- `DocumentParser.extract_with_patterns(text, doc_type)`: unknown types
fall back to `"general"`; each field of the selected table is included iff
its regex has at least one case-insensitive match, with values
deduplicated. -/
def extract_with_patterns (text : List Char) (doc_type : String) :
    List (String × List FindVal) :=
  let dt := if (patternsTable.lookup doc_type).isSome then doc_type else "general"
  let tbl := (patternsTable.lookup dt).getD []
  tbl.filterMap (fun fp =>
    let ms := reFindall true fp.2.re fp.2.groups text
    if ms = [] then none else some (fp.1, dedupFirst ms))

/-! ## The classifier state machine

The scikit-learn estimators are opaque: their fitted states are the type
parameters `V` (TfidfVectorizer), `C` (the classifier) and `L`
(LabelEncoder), and every call into them is an environment field returning
`Except String _` (`.error msg` models a raised exception with message
`msg`).  The joblib artifact of `save_model` is the record of everything
the source passes to `joblib.dump`; the file system seen by `load_model`
is `Option (Except String (ModelData V C L))`: `none` for a missing file,
`some (.error e)` for an artifact on which `joblib.load` or the field
lookups raise, `some (.ok md)` for a well-formed artifact. -/

structure TrainingRecord where
  timestamp : String
  sample_count : Nat
  deriving DecidableEq, Repr

structure ClassifierState (V C L : Type) where
  vectorizer : V
  classifier : C
  label_encoder : L
  is_trained : Bool
  training_history : List TrainingRecord
  last_training_samples : Nat
  deriving DecidableEq

structure ModelData (V C L : Type) where
  vectorizer : V
  classifier : C
  label_encoder : L
  is_trained : Bool
  training_history : List TrainingRecord
  last_training_samples : Nat
  deriving DecidableEq

/-- `DocumentParser.predict_document_type`: raises unless trained, then
runs `label_encoder.inverse_transform(classifier.predict(
vectorizer.transform([text])))[0]`, abstracted as `mlEval`. -/
def predict_document_type {V C L : Type}
    (mlEval : V → C → L → String → Except String String)
    (st : ClassifierState V C L) (text : String) : Except String String :=
  if !st.is_trained then .error "Model must be trained before prediction"
  else mlEval st.vectorizer st.classifier st.label_encoder text

/-- `DocumentParser.save_model`: raises unless trained (before anything is
written), otherwise dumps all six state fields into one artifact. -/
def save_model {V C L : Type} (st : ClassifierState V C L) :
    Except String (ModelData V C L) :=
  if !st.is_trained then .error "Model must be trained before saving"
  else .ok ⟨st.vectorizer, st.classifier, st.label_encoder, st.is_trained,
            st.training_history, st.last_training_samples⟩

/-- `DocumentParser.load_model`: a missing file logs a warning and returns
with the state untouched; a loadable artifact replaces all six fields (the
history fields through `.get` with defaults, but artifacts written by
`save_model` always carry them); a raising load re-initialises the three
estimator components and clears `is_trained`, leaving the history fields
as they were. -/
def load_model {V C L : Type} (st : ClassifierState V C L)
    (freshV : V) (freshC : C) (freshL : L)
    (artifact : Option (Except String (ModelData V C L))) : ClassifierState V C L :=
  match artifact with
  | none => st
  | some (.error _) =>
    { st with vectorizer := freshV, classifier := freshC, label_encoder := freshL,
              is_trained := false }
  | some (.ok md) =>
    { vectorizer := md.vectorizer, classifier := md.classifier,
      label_encoder := md.label_encoder, is_trained := md.is_trained,
      training_history := md.training_history,
      last_training_samples := md.last_training_samples }

structure TrainingSample where
  text : String
  doc_type : String
  deriving DecidableEq

/-- The fallible external calls of `train_model`, as functions of the
training frame: `fitVectorizer` is `vectorizer.fit_transform` (returning
the newly fitted vectorizer), `fitLabels` is `label_encoder.fit_transform`,
`split` is `train_test_split(..., stratify=y)`, `fitPrimary` is the
RandomForest fit together with the diagnostic test-set report, and
`fitFallback` the LogisticRegression fallback fit; `freshFallback` is the
unfitted `LogisticRegression(random_state=42)` object assigned before the
fallback fit runs.  `synthetic` is `create_training_data(1000)`, used when
the caller passes no frame. -/
structure TrainEnv (V C L : Type) where
  synthetic : List TrainingSample
  fitVectorizer : List String → Except String V
  fitLabels : List String → Except String L
  split : List TrainingSample → Except String Unit
  fitPrimary : List TrainingSample → Except String C
  freshFallback : C
  fitFallback : List TrainingSample → Except String C

/-- `DocumentParser.train_model`.  An empty frame only logs and returns; the
outer pipeline failure leaves whatever in-place mutations already happened;
a successful primary or fallback fit marks the state trained, appends one
TrainingRecord and records the sample count. -/
def train_model {V C L : Type} (env : TrainEnv V C L) (now : String)
    (df : Option (List TrainingSample)) (st : ClassifierState V C L) :
    ClassifierState V C L :=
  let samples := df.getD env.synthetic
  let info : TrainingRecord := ⟨now, samples.length⟩
  if samples.length = 0 then st
  else
    match env.fitVectorizer (samples.map (fun s => s.text)) with
    | .error _ => st
    | .ok v =>
      match env.fitLabels (samples.map (fun s => s.doc_type)) with
      | .error _ => { st with vectorizer := v }
      | .ok le =>
        match env.split samples with
        | .error _ => { st with vectorizer := v, label_encoder := le }
        | .ok _ =>
          match env.fitPrimary samples with
          | .ok c =>
            { vectorizer := v, classifier := c, label_encoder := le,
              is_trained := true,
              training_history := st.training_history ++ [info],
              last_training_samples := samples.length }
          | .error _ =>
            match env.fitFallback samples with
            | .ok c =>
              { vectorizer := v, classifier := c, label_encoder := le,
                is_trained := true,
                training_history := st.training_history ++ [info],
                last_training_samples := samples.length }
            | .error _ =>
              { st with vectorizer := v, label_encoder := le,
                        classifier := env.freshFallback }

/-! ## The orchestrator environment -/

/-- A spaCy entity: text span and label. -/
abbrev Ent := String × String

/-- The orchestrator's external collaborators: the text extractors (which
catch internally and return possibly-empty strings), the spaCy pipeline
(returning the document's entities, possibly raising), the composed
vectorizer-transform / classifier-predict / label-decode call, the
phonenumbers calls (`.error` = `parse` raised, `.ok none` = parsed but
invalid, `.ok (some f)` = valid with international formatting), the
vectorizer's feature count and the label encoder's class list, and the
clock. -/
structure ParserEnv (V C L : Type) where
  extractImage : String → String
  extractPdf : String → String
  nlp : String → Except String (List Ent)
  mlEval : V → C → L → String → Except String String
  phoneParse : String → Except String (Option String)
  vecFeatures : V → Nat
  classes : L → List String
  now : String

/-! ## Python dict helpers (insertion-ordered association lists) -/

def hasKey {α : Type} (m : List (String × α)) (k : String) : Bool :=
  (m.lookup k).isSome

/-- `m[k] = v`: update in place, or append a new key. -/
def setKey {α : Type} (m : List (String × α)) (k : String) (v : α) :
    List (String × α) :=
  if hasKey m k then m.map (fun kv => if kv.1 = k then (k, v) else kv)
  else m ++ [(k, v)]

def fvStr : FindVal → String
  | .str s => s
  | .tup _ => ""

/-- `re.findall` for a single-group pattern, as plain strings. -/
def findallStr (ign : Bool) (r : RE) (t : List Char) : List String :=
  (reFindall ign r 1 t).map fvStr

/-! ## `DocumentParser.extract_invoice_details` -/

def extract_invoice_details {V C L : Type} (env : ParserEnv V C L) (text : String) :
    Except String (List (String × List FindVal)) := do
  let pr := extract_with_patterns text.toList "invoice"
  let ents ← env.nlp text
  let persons := (ents.filter (fun e => e.2 = "PERSON")).map (fun e => e.1)
  let pr := persons.foldl (fun m p =>
    let parts := splitWs p.toList
    if parts.length ≥ 2 then
      let m := if hasKey m "first_name" then m
               else setKey m "first_name" [.str (String.mk (parts.headD []))]
      if hasKey m "last_name" then m
      else setKey m "last_name" [.str (String.mk (parts.getLastD []))]
    else m) pr
  let locs := (ents.filter (fun e => e.2 = "GPE" ∨ e.2 = "LOC")).map (fun e => e.1)
  if locs ≠ [] ∧ ¬ hasKey pr "city" then
    return setKey pr "city" (locs.map .str)
  else
    return pr

/-! ## `DocumentParser.extract_entities` -/

def entityKinds : List String := ["PERSON", "ORG", "GPE", "DATE", "MONEY", "PRODUCT"]

def extract_entities {V C L : Type} (env : ParserEnv V C L) (text : String) :
    Except String (List (String × List String)) := do
  let ents ← env.nlp text
  return entityKinds.map (fun k =>
    (k, dedupFirst ((ents.filter (fun e => e.2 = k)).map (fun e => e.1))))

/-! ## `DocumentParser.extract_contact_info` -/

/-- The common block terminator lookahead of the contact-block patterns:
blank line, newline followed by a capital, or end of input. -/
def blockEnd : RE :=
  .look (reAlts [reSeqs [.lit '\n', .lit '\n'],
                 reSeqs [.lit '\n', cc [.range 'A' 'Z']], .endZ])

/-- The three contact-block patterns (IGNORECASE and DOTALL, so `dot`
matches newlines): a lazy prefix, an optional colon, and a lazy
single-group body up to the terminator. -/
def contactBlockREs : List RE :=
  [reSeqs [reStr "contact", lazyStar .dot, reStr "information", opt (.lit ':'),
     g1 (lazyStar .dot), blockEnd],
   reSeqs [reStr "details", opt (.lit ':'), g1 (lazyStar .dot), blockEnd],
   reSeqs [reStr "for more", lazyStar .dot, reStr "information", opt (.lit ':'),
     g1 (lazyStar .dot), blockEnd]]

def extract_contact_info {V C L : Type} (env : ParserEnv V C L) (text : String) :
    List (String × List FindVal) :=
  let contact := extract_with_patterns text.toList "contact"
  let phones := (contact.lookup "phone").getD []
  let enhanced := phones.filterMap (fun v =>
    match v with
    | .str s =>
      match env.phoneParse s with
      | .error _ => some (.str s)
      | .ok none => none
      | .ok (some f) => some (.str f)
    | .tup ss => some (.tup ss))
  let contact := if enhanced ≠ [] then setKey contact "phone" enhanced else contact
  let blocks := contactBlockREs.flatMap (fun r => findallStr true r text.toList)
  let cleaned := (blocks.map (fun b => String.mk (pyStrip (collapseWs b.toList)))).filter
      (fun b => b.length > 10)
  if cleaned ≠ [] then setKey contact "contact_blocks" (cleaned.map .str)
  else contact

/-! ## `DocumentParser.extract_document_holder_name` -/

/-- `([A-Z][a-z]+(?:\s+[A-Z][a-z]+)+)` -/
def holderName : RE :=
  g1 (reSeqs [cc [.range 'A' 'Z'], plus (cc [.range 'a' 'z']),
      plus (reSeqs [plus clsS, cc [.range 'A' 'Z'], plus (cc [.range 'a' 'z'])])])

def holderREs : List RE :=
  [reSeqs [reAlts [reStr "name", reStr "holder", reStr "account holder",
      reStr "contact"], .lit ':', star clsS, holderName],
   reSeqs [reAlts [reStr "mr.", reStr "mrs.", reStr "ms.", reStr "dr."],
      plus clsS, holderName],
   reSeqs [reStr "prepared by:", star clsS, holderName],
   reSeqs [reStr "issued to:", star clsS, holderName],
   reSeqs [reStr "attention:", star clsS, holderName],
   reSeqs [reStr "attn:", star clsS, holderName]]

structure NameInfo where
  candidate_names : List String
  primary_name : Option String
  deriving DecidableEq, Repr

/-- `max(0, 1 - position/len(text)) if position >= 0 else 0`. -/
def holderScore (text : List Char) (name : String) : ℚ :=
  match pyFind text name.toList with
  | some pos => max 0 (1 - (pos : ℚ) / (text.length : ℚ))
  | none => 0

/-- Stable insertion preserving original order among equal scores, as
Python's stable `sort(key=..., reverse=True)`. -/
def insertDesc (x : String × ℚ) : List (String × ℚ) → List (String × ℚ)
  | [] => [x]
  | y :: ys => if y.2 ≥ x.2 then y :: insertDesc x ys else x :: y :: ys

def sortDesc (l : List (String × ℚ)) : List (String × ℚ) :=
  l.foldl (fun acc x => insertDesc x acc) []

def extract_document_holder_name {V C L : Type} (env : ParserEnv V C L)
    (text : String) : Except String NameInfo := do
  let names := holderREs.flatMap (fun r => findallStr true r text.toList)
  let doc ← env.nlp text
  let nerNames := (doc.filter (fun e => e.2 = "PERSON")).map (fun e => e.1)
  let allNames := dedupFirst (names ++ nerNames)
  let filtered := allNames.filter (fun n =>
    decide ((splitWs n.toList).length ≥ 2) && decide (n.length > 4))
  let scored := filtered.map (fun n => (n, holderScore text.toList n))
  let sorted := sortDesc scored
  return { candidate_names := sorted.map (fun x => x.1),
           primary_name := (sorted.head?).map (fun x => x.1) }

/-! ## `DocumentParser.extract_features` -/

structure MLFeatures where
  email_count : Nat
  phone_count : Nat
  currency_count : Nat
  date_count : Nat
  person_count : Nat
  org_count : Nat
  text_length : Nat
  deriving DecidableEq, Repr

/-- The lexical counts use the same email/phone/currency/date patterns as
the tables but without IGNORECASE; only the number of matches is kept. -/
def extract_features {V C L : Type} (env : ParserEnv V C L) (text : String) :
    Except String MLFeatures := do
  let doc ← env.nlp text
  return {
    email_count := (reFindall false emailBody 1 text.toList).length
    phone_count := (reFindall false phoneBody 1 text.toList).length
    currency_count := (reFindall false currencyBody 1 text.toList).length
    date_count := (reFindall false dateBody 1 text.toList).length
    person_count := ((doc.filter (fun e => e.2 = "PERSON"))).length
    org_count := ((doc.filter (fun e => e.2 = "ORG"))).length
    text_length := text.length }

/-! ## `DocumentParser.parse_document` -/

structure ParseResult where
  success : Bool
  error : Option String
  document_type : Option String
  pattern_extraction : Option (List (String × List FindVal))
  contact_info : Option (List (String × List FindVal))
  name_info : Option NameInfo
  entities : Option (List (String × List String))
  ml_features : Option MLFeatures
  cleaned_text : Option String
  extraction_time : Option String
  deriving DecidableEq, Repr

/-- The early return for a file yielding no text: only `success` and
`error` are set. -/
def noTextResult : ParseResult :=
  { success := false, error := some "No text could be extracted from the document",
    document_type := none, pattern_extraction := none, contact_info := none,
    name_info := none, entities := none, ml_features := none,
    cleaned_text := none, extraction_time := none }

/-- The result assembled by the orchestrator's exception handler. -/
def errorResult (msg now : String) : ParseResult :=
  { success := false, error := some msg, document_type := none,
    pattern_extraction := none, contact_info := none, name_info := none,
    entities := none, ml_features := none, cleaned_text := none,
    extraction_time := some now }

def imageExts : List String := [".jpg", ".jpeg", ".png", ".bmp", ".tiff"]

def pyLower (s : String) : String := String.mk (s.toList.map Char.toLower)

/-- `file_path.lower().endswith(('.jpg', '.jpeg', '.png', '.bmp', '.tiff'))` -/
def isImagePath (p : String) : Bool :=
  imageExts.any (fun e => e.toList.isSuffixOf (pyLower p).toList)

/-- The preview cap: the first 1000 characters followed by an ellipsis. -/
def truncPreview (s : String) : String :=
  if s.length > 1000 then String.mk (s.toList.take 1000) ++ "..." else s

/-- The body of `parse_document`'s try block; a `.error` is whatever
exception escapes steps 1-8 (in the source only the spaCy calls can
raise here — the extractors, cleaner, regex matching and phone handling
all catch internally or are pure). -/
def parseBody {V C L : Type} (env : ParserEnv V C L) (st : ClassifierState V C L)
    (file_path doc_type : String) (use_ml : Bool) : Except String ParseResult :=
  let raw := if isImagePath file_path then env.extractImage file_path
             else env.extractPdf file_path
  if raw = "" then pure noTextResult
  else
    let cleaned := clean_text raw
    let dt := if use_ml && st.is_trained then
        match predict_document_type env.mlEval st cleaned with
        | .ok p => p
        | .error _ => doc_type
      else doc_type
    (if dt = "invoice" then extract_invoice_details env cleaned
     else pure (extract_with_patterns cleaned.toList dt)).bind fun patterns =>
    let contact := extract_contact_info env cleaned
    (extract_document_holder_name env cleaned).bind fun names =>
    (extract_entities env cleaned).bind fun ents =>
    (extract_features env cleaned).bind fun feats =>
    pure { success := true, error := none, document_type := some dt,
           pattern_extraction := some patterns, contact_info := some contact,
           name_info := some names, entities := some ents, ml_features := some feats,
           cleaned_text := some (truncPreview cleaned),
           extraction_time := some env.now }

/-- `DocumentParser.parse_document`: the try body with the exception
handler converting any raised message into a failure result. -/
def parse_document {V C L : Type} (env : ParserEnv V C L) (st : ClassifierState V C L)
    (file_path doc_type : String) (use_ml : Bool) : ParseResult :=
  match parseBody env st file_path doc_type use_ml with
  | .ok r => r
  | .error e => errorResult e env.now

/-! ## `DocumentParser.evaluate_model` -/

structure LabeledDoc where
  true_document_type : Option String
  file_path : Option String

/-- Python truthiness of `doc.get(...)`: absent/None or the empty string
are falsy. -/
def truthy : Option String → Bool
  | none => false
  | some s => s ≠ ""

structure EvalReport where
  accuracy : ℚ
  correct_predictions : Nat
  total_documents : Nat
  confusion_data : List (String × Nat)
  vectorizer_features : Nat
  model_classes : List String
  training_samples : Nat
  deriving DecidableEq, Repr

/-- f-string rendering of an optional label (`None` prints as "None"). -/
def optLabel : Option String → String
  | none => "None"
  | some s => s

def bumpKey (m : List (String × Nat)) (k : String) : List (String × Nat) :=
  if hasKey m k then m.map (fun kv => if kv.1 = k then (k, kv.2 + 1) else kv)
  else m ++ [(k, 1)]

/-- One iteration of the evaluation loop: docs with a falsy label or path
are skipped; otherwise the document is parsed with `use_ml=True` and the
predicted type compared with the true label. -/
def evalStep {V C L : Type} (env : ParserEnv V C L) (st : ClassifierState V C L)
    (acc : Nat × List (String × Nat)) (doc : LabeledDoc) :
    Nat × List (String × Nat) :=
  if truthy doc.true_document_type && truthy doc.file_path then
    let r := parse_document env st (doc.file_path.getD "") "general" true
    let pred := r.document_type
    let correct := if pred = doc.true_document_type then acc.1 + 1 else acc.1
    let key := optLabel doc.true_document_type ++ "_" ++ optLabel pred
    (correct, bumpKey acc.2 key)
  else acc

/-- Python's banker's rounding to an integer, on exact rationals. -/
def roundHalfEven (q : ℚ) : ℤ :=
  let f := ⌊q⌋
  let r := q - f
  if r < 1/2 then f
  else if 1/2 < r then f + 1
  else if f % 2 = 0 then f else f + 1

/-- `round(x, 2)`, idealised over exact rationals (the source computes on
floats; the claims state the arithmetic exactly). -/
def pyRound2 (q : ℚ) : ℚ := (roundHalfEven (q * 100) : ℚ) / 100

/-- `DocumentParser.evaluate_model`; the untrained early return
`{"error": "Model not trained"}` is the `.error` case. -/
def evaluate_model {V C L : Type} (env : ParserEnv V C L) (st : ClassifierState V C L)
    (docs : List LabeledDoc) : Except String EvalReport :=
  if !st.is_trained then .error "Model not trained"
  else
    let res := docs.foldl (evalStep env st) (0, [])
    let total := docs.length
    let accuracy := if total > 0 then pyRound2 ((res.1 : ℚ) / (total : ℚ) * 100) else 0
    .ok { accuracy := accuracy, correct_predictions := res.1, total_documents := total,
          confusion_data := res.2,
          vectorizer_features := env.vecFeatures st.vectorizer,
          model_classes := env.classes st.label_encoder,
          training_samples := st.last_training_samples }

/-! ## Concrete instances used by witnesses and counterexamples -/

/-- A trivially correct ML evaluation stub over `Nat` component states. -/
def mlEval0 : Nat → Nat → Nat → String → Except String String :=
  fun _ _ _ _ => .ok "invoice"

def untrainedSt : ClassifierState Nat Nat Nat :=
  { vectorizer := 0, classifier := 0, label_encoder := 0, is_trained := false,
    training_history := [], last_training_samples := 0 }

def trainedSt : ClassifierState Nat Nat Nat :=
  { vectorizer := 1, classifier := 2, label_encoder := 3, is_trained := true,
    training_history := [⟨"2024-01-01T00:00:00", 5⟩], last_training_samples := 5 }

/-! ## Claim theorems -/

/-- C5: for every input text, calling `predict_document_type` on a
classifier whose `is_trained` flag is false raises the untrained-model
error rather than returning a label; there is no silent fallback. -/
theorem predict_untrained_raises {V C L : Type}
    (mlEval : V → C → L → String → Except String String)
    (st : ClassifierState V C L) (text : String)
    (h : st.is_trained = false) :
    predict_document_type mlEval st text =
      .error "Model must be trained before prediction" := by
  simp [predict_document_type, h]

theorem predict_untrained_raises_witness :
    untrainedSt.is_trained = false ∧
    predict_document_type mlEval0 untrainedSt "Invoice #1 Total: $5" =
      .error "Model must be trained before prediction" :=
  ⟨rfl, predict_untrained_raises mlEval0 untrainedSt "Invoice #1 Total: $5" rfl⟩

/-- C10: `save_model` on an untrained classifier raises
"Model must be trained before saving" (before anything is written), so no
artifact is produced; saving is only possible from the trained state. -/
theorem save_untrained_raises {V C L : Type} (st : ClassifierState V C L)
    (h : st.is_trained = false) :
    save_model st = .error "Model must be trained before saving" ∧
    ∀ md : ModelData V C L, save_model st ≠ .ok md := by
  refine ⟨by simp [save_model, h], fun md hmd => ?_⟩
  rw [save_model] at hmd
  simp [h] at hmd

theorem save_untrained_raises_witness :
    untrainedSt.is_trained = false ∧
    save_model untrainedSt = .error "Model must be trained before saving" :=
  ⟨rfl, (save_untrained_raises untrainedSt rfl).1⟩

/-- C3: saving a trained classifier and loading the resulting artifact
restores a state equal to the pre-save instance: the same `is_trained`
flag, training history and last sample count, and identical predictions on
every input text. -/
theorem save_load_roundtrip {V C L : Type}
    (mlEval : V → C → L → String → Except String String)
    (st : ClassifierState V C L) (fV : V) (fC : C) (fL : L)
    (md : ModelData V C L)
    (h : save_model st = .ok md) :
    load_model st fV fC fL (some (.ok md)) = st ∧
    (load_model st fV fC fL (some (.ok md))).is_trained = st.is_trained ∧
    (load_model st fV fC fL (some (.ok md))).training_history = st.training_history ∧
    (load_model st fV fC fL (some (.ok md))).last_training_samples =
      st.last_training_samples ∧
    ∀ text, predict_document_type mlEval (load_model st fV fC fL (some (.ok md))) text =
            predict_document_type mlEval st text := by
  obtain ⟨v, c, l, tr, hist, lst⟩ := st
  rw [save_model] at h
  by_cases ht : tr = true
  · subst ht
    simp only [Bool.not_true, Bool.false_eq_true, if_false, Except.ok.injEq] at h
    subst h
    exact ⟨rfl, rfl, rfl, rfl, fun _ => rfl⟩
  · simp only [Bool.not_eq_true] at ht
    simp [ht] at h

theorem save_load_roundtrip_witness :
    save_model trainedSt =
      .ok ⟨1, 2, 3, true, [⟨"2024-01-01T00:00:00", 5⟩], 5⟩ ∧
    load_model trainedSt 0 0 0 (some (.ok
      ⟨1, 2, 3, true, [⟨"2024-01-01T00:00:00", 5⟩], 5⟩)) = trainedSt :=
  ⟨rfl,
   (save_load_roundtrip mlEval0 trainedSt 0 0 0
      ⟨1, 2, 3, true, [⟨"2024-01-01T00:00:00", 5⟩], 5⟩ rfl).1⟩

/-- C4 counterexample: `load_model` on a path whose file does not exist
returns with the state untouched, so a previously trained classifier still
has `is_trained = true` afterwards — the claim that every classifier state
ends up untrained after loading a missing artifact is false. -/
theorem load_missing_keeps_trained :
    load_model trainedSt 0 0 0 none = trainedSt ∧
    ¬ ((load_model trainedSt 0 0 0 none).is_trained = false) := by
  constructor
  · rfl
  · decide

/-- C4 amended: `load_model` never raises (it is a total function); loading
a corrupt artifact resets the estimator components to fresh ones and clears
`is_trained`; loading a missing artifact leaves the state unchanged, so the
classifier is untrained afterwards only if it already was. -/
theorem load_model_amended {V C L : Type} (st : ClassifierState V C L)
    (fV : V) (fC : C) (fL : L) :
    (∀ e, (load_model st fV fC fL (some (.error e))).is_trained = false ∧
          (load_model st fV fC fL (some (.error e))).vectorizer = fV ∧
          (load_model st fV fC fL (some (.error e))).classifier = fC ∧
          (load_model st fV fC fL (some (.error e))).label_encoder = fL) ∧
    load_model st fV fC fL none = st := by
  exact ⟨fun _ => ⟨rfl, rfl, rfl, rfl⟩, rfl⟩

/-! ### Training history (C9) -/

def exOk {α : Type} : Except String α → Bool
  | .ok _ => true
  | .error _ => false

/-- A `train_model` call succeeds when the frame is non-empty, the
vectorizer/label/split steps fit, and either the primary classifier fit or
the fallback fit succeeds. -/
def trainFitOk {V C L : Type} (env : TrainEnv V C L)
    (samples : List TrainingSample) : Prop :=
  samples ≠ [] ∧
  exOk (env.fitVectorizer (samples.map (fun s => s.text))) = true ∧
  exOk (env.fitLabels (samples.map (fun s => s.doc_type))) = true ∧
  exOk (env.split samples) = true ∧
  (exOk (env.fitPrimary samples) = true ∨ exOk (env.fitFallback samples) = true)

theorem train_model_success {V C L : Type} (env : TrainEnv V C L) (now : String)
    (df : Option (List TrainingSample)) (st : ClassifierState V C L)
    (h : trainFitOk env (df.getD env.synthetic)) :
    (train_model env now df st).training_history =
      st.training_history ++ [⟨now, (df.getD env.synthetic).length⟩] ∧
    (train_model env now df st).last_training_samples =
      (df.getD env.synthetic).length ∧
    (train_model env now df st).is_trained = true := by
  obtain ⟨hne, hv, hl, hs, hc⟩ := h
  rw [train_model]
  have hlen : ¬ ((df.getD env.synthetic).length = 0) := by
    simpa [List.length_eq_zero] using hne
  rw [if_neg hlen]
  cases hveq : env.fitVectorizer ((df.getD env.synthetic).map (fun s => s.text)) with
  | error e => rw [hveq] at hv; simp [exOk] at hv
  | ok v =>
    cases hleq : env.fitLabels ((df.getD env.synthetic).map (fun s => s.doc_type)) with
    | error e => rw [hleq] at hl; simp [exOk] at hl
    | ok le =>
      cases hseq : env.split (df.getD env.synthetic) with
      | error e => rw [hseq] at hs; simp [exOk] at hs
      | ok u =>
        cases hpeq : env.fitPrimary (df.getD env.synthetic) with
        | ok c => exact ⟨rfl, rfl, rfl⟩
        | error e =>
          cases hfeq : env.fitFallback (df.getD env.synthetic) with
          | ok c => exact ⟨rfl, rfl, rfl⟩
          | error e2 =>
            rw [hpeq] at hc; rw [hfeq] at hc
            simp [exOk] at hc

/-- C9: every successful `train_model` call appends exactly one record
(timestamp, sample count) to the training history, leaving the existing
records untouched, and sets `last_training_samples` to that call's sample
count; hence two successive successful calls extend the history by exactly
their two records, with `last_training_samples` from the second call. -/
theorem train_history_growth {V C L : Type} (env1 env2 : TrainEnv V C L)
    (now1 now2 : String) (df1 df2 : Option (List TrainingSample))
    (st : ClassifierState V C L)
    (h1 : trainFitOk env1 (df1.getD env1.synthetic))
    (h2 : trainFitOk env2 (df2.getD env2.synthetic)) :
    (train_model env1 now1 df1 st).training_history =
      st.training_history ++ [⟨now1, (df1.getD env1.synthetic).length⟩] ∧
    (train_model env1 now1 df1 st).last_training_samples =
      (df1.getD env1.synthetic).length ∧
    (train_model env2 now2 df2 (train_model env1 now1 df1 st)).training_history =
      st.training_history ++ [⟨now1, (df1.getD env1.synthetic).length⟩,
                              ⟨now2, (df2.getD env2.synthetic).length⟩] ∧
    (train_model env2 now2 df2 (train_model env1 now1 df1 st)).last_training_samples =
      (df2.getD env2.synthetic).length ∧
    (train_model env2 now2 df2 (train_model env1 now1 df1 st)).is_trained = true := by
  obtain ⟨hh1, hl1, ht1⟩ := train_model_success env1 now1 df1 st h1
  obtain ⟨hh2, hl2, ht2⟩ :=
    train_model_success env2 now2 df2 (train_model env1 now1 df1 st) h2
  refine ⟨hh1, hl1, ?_, hl2, ht2⟩
  rw [hh2, hh1, List.append_assoc]
  rfl

/-- An always-succeeding training environment over `Nat` component states. -/
def trainEnv0 : TrainEnv Nat Nat Nat :=
  { synthetic := [⟨"syn", "general"⟩]
    fitVectorizer := fun _ => .ok 1
    fitLabels := fun _ => .ok 1
    split := fun _ => .ok ()
    fitPrimary := fun _ => .ok 1
    freshFallback := 0
    fitFallback := fun _ => .ok 2 }

def samples1 : List TrainingSample := [⟨"Invoice #1", "invoice"⟩]

def samples2 : List TrainingSample :=
  [⟨"Receipt", "receipt"⟩, ⟨"Contact: Jo", "contact"⟩]

theorem train_history_growth_witness :
    (train_model trainEnv0 "t2" (some samples2)
       (train_model trainEnv0 "t1" (some samples1) untrainedSt)).training_history =
      [⟨"t1", 1⟩, ⟨"t2", 2⟩] ∧
    (train_model trainEnv0 "t2" (some samples2)
       (train_model trainEnv0 "t1" (some samples1) untrainedSt)).last_training_samples = 2 :=
  ⟨((train_history_growth trainEnv0 trainEnv0 "t1" "t2" (some samples1) (some samples2)
      untrainedSt ⟨by simp [samples1], rfl, rfl, rfl, Or.inl rfl⟩
      ⟨by simp [samples2], rfl, rfl, rfl, Or.inl rfl⟩).2.2.1),
   ((train_history_growth trainEnv0 trainEnv0 "t1" "t2" (some samples1) (some samples2)
      untrainedSt ⟨by simp [samples1], rfl, rfl, rfl, Or.inl rfl⟩
      ⟨by simp [samples2], rfl, rfl, rfl, Or.inl rfl⟩).2.2.2.1)⟩

/-! ### The invoice scenario (C7) -/

/-- The canonical scenario text of the specification. -/
def scenarioText : String := "Invoice #INV-1001\nTotal: $1500.00\nTax: $120.00"

/-- A text that also contains the three scenario substrings, plus one more
fragment the invoice-number rule matches. -/
def scenarioTextB : String :=
  "Invoice #INV-1001 Total: $1500.00 Tax: $120.00 inv A7"

/-- C7 counterexample: the claim quantifies over every text containing the
three substrings, but other fragments can also match the invoice-number
rule (under IGNORECASE the class [A-Z0-9-] also matches lowercase), so the
value list need not equal ["INV-1001"]: on `scenarioTextB` the rule yields
both "INV-1001" and "A7". -/
theorem invoice_scenario_counterexample :
    (pyFind scenarioTextB.toList "Invoice #INV-1001".toList).isSome = true ∧
    (pyFind scenarioTextB.toList "Total: $1500.00".toList).isSome = true ∧
    (pyFind scenarioTextB.toList "Tax: $120.00".toList).isSome = true ∧
    (extract_with_patterns scenarioTextB.toList "invoice").lookup "invoice_number" =
      some [.str "INV-1001", .str "A7"] ∧
    (extract_with_patterns scenarioTextB.toList "invoice").lookup "invoice_number" ≠
      some [.str "INV-1001"] := by
  decide

/-- C7 amended: on the scenario text itself (the three fragments and
nothing else), pattern extraction with type `invoice` yields
`invoice_number = ["INV-1001"]` and a `total_amount` entry containing
`"$1500.00"`. -/
theorem invoice_scenario_amended :
    (extract_with_patterns scenarioText.toList "invoice").lookup "invoice_number" =
      some [.str "INV-1001"] ∧
    (extract_with_patterns scenarioText.toList "invoice").lookup "total_amount" =
      some [.str "$1500.00"] ∧
    FindVal.str "$1500.00" ∈ [FindVal.str "$1500.00"] := by
  decide

/-! ### Cleaning lemmas (C2) -/

theorem pyReplaceGo_single_id (c : Char) (fuel : Nat) :
    ∀ s : List Char, pyReplaceGo [c] [c] fuel s = s := by
  induction fuel with
  | zero => intro s; cases s <;> rfl
  | succ n ih =>
    intro s
    cases s with
    | nil => rfl
    | cons c' cs =>
      by_cases h : c = c'
      · subst h
        simp [pyReplaceGo, List.isPrefixOf, ih]
      · simp [pyReplaceGo, List.isPrefixOf, h, ih]

theorem pyReplace_single_id (c : Char) (s : List Char) :
    pyReplace [c] [c] s = s :=
  pyReplaceGo_single_id c s.length s

theorem mem_pyReplaceGo {pat rep : List Char} {x : Char} (fuel : Nat) :
    ∀ s : List Char, x ∈ pyReplaceGo pat rep fuel s → x ∈ s ∨ x ∈ rep := by
  induction fuel with
  | zero =>
    intro s h
    cases s with
    | nil => simp [pyReplaceGo] at h
    | cons c cs => exact Or.inl h
  | succ n ih =>
    intro s h
    cases s with
    | nil => simp [pyReplaceGo] at h
    | cons c cs =>
      simp only [pyReplaceGo] at h
      split at h
      · rcases List.mem_append.mp h with hr | hg
        · exact Or.inr hr
        · rcases ih _ hg with hs | hr
          · exact Or.inl (List.drop_subset _ _ hs)
          · exact Or.inr hr
      · rcases List.mem_cons.mp h with he | hg
        · exact Or.inl (by simp [he])
        · rcases ih _ hg with hs | hr
          · exact Or.inl (List.mem_cons_of_mem _ hs)
          · exact Or.inr hr

theorem mem_pyReplace {pat rep : List Char} {x : Char} {s : List Char}
    (h : x ∈ pyReplace pat rep s) : x ∈ s ∨ x ∈ rep :=
  mem_pyReplaceGo _ _ h

theorem pyReplaceGo_not_mem_id {p : Char} (rep : List Char) (fuel : Nat) :
    ∀ s : List Char, p ∉ s → pyReplaceGo [p] rep fuel s = s := by
  induction fuel with
  | zero => intro s _; cases s <;> rfl
  | succ n ih =>
    intro s hnm
    cases s with
    | nil => rfl
    | cons c cs =>
      have hpc : ¬ (p = c) := fun he => hnm (by simp [he])
      have hcs : p ∉ cs := fun hm => hnm (List.mem_cons_of_mem _ hm)
      simp [pyReplaceGo, List.isPrefixOf, hpc, ih _ hcs]

theorem pyReplace_not_mem_id {p : Char} (rep : List Char) {s : List Char}
    (h : p ∉ s) : pyReplace [p] rep s = s :=
  pyReplaceGo_not_mem_id rep s.length s h

theorem not_mem_pyReplaceGo_single {p r : Char} (hne : p ≠ r) (fuel : Nat) :
    ∀ s : List Char, s.length ≤ fuel → p ∉ pyReplaceGo [p] [r] fuel s := by
  induction fuel with
  | zero =>
    intro s hlen
    have : s = [] := List.length_eq_zero.mp (Nat.le_zero.mp hlen)
    subst this
    simp [pyReplaceGo]
  | succ n ih =>
    intro s hlen
    cases s with
    | nil => simp [pyReplaceGo]
    | cons c cs =>
      simp only [pyReplaceGo]
      split
      · intro hmem
        rcases List.mem_append.mp hmem with hr | hg
        · rcases List.mem_singleton.mp hr with rfl
          exact hne rfl
        · have hd : List.drop 1 (c :: cs) = cs := rfl
          rw [List.length_singleton, hd] at hg
          exact ih cs (Nat.le_of_succ_le_succ hlen) hg
      · intro hmem
        rcases List.mem_cons.mp hmem with he | hg
        · rename_i hcond
          apply hcond
          subst he
          simp [List.isPrefixOf]
        · exact ih cs (Nat.le_of_succ_le_succ hlen) hg

theorem not_mem_pyReplace_single {p r : Char} (hne : p ≠ r) (s : List Char) :
    p ∉ pyReplace [p] [r] s :=
  not_mem_pyReplaceGo_single hne s.length s le_rfl

theorem pyStrip_subset (s : List Char) : pyStrip s ⊆ s := by
  intro c hc
  simp only [pyStrip, stripLeft] at hc
  rw [List.mem_reverse] at hc
  have h1 := (List.dropWhile_sublist isPySpace).subset hc
  rw [List.mem_reverse] at h1
  exact (List.dropWhile_sublist isPySpace).subset h1

theorem not_mem_removeFFFD (s : List Char) : '�' ∉ removeFFFD s := by
  intro h
  rw [removeFFFD] at h
  have := (List.mem_filter.mp h).2
  simp at this

theorem removeFFFD_of_not_mem {s : List Char} (h : '�' ∉ s) :
    removeFFFD s = s := by
  rw [removeFFFD]
  rw [List.filter_eq_self]
  intro a ha
  simp only [decide_eq_true_eq]
  intro he
  exact h (he ▸ ha)

theorem not_mem_cleanPipe_fffd (s : List Char) : '�' ∉ cleanPipe s := by
  intro h
  rw [cleanPipe] at h
  have h := pyStrip_subset _ h
  rcases mem_pyReplace h with h | h; swap; · simp at h
  rcases mem_pyReplace h with h | h; swap; · simp at h
  rcases mem_pyReplace h with h | h; swap; · simp at h
  rcases mem_pyReplace h with h | h; swap; · simp at h
  rcases mem_pyReplace h with h | h; swap; · simp at h
  rcases mem_pyReplace h with h | h; swap; · simp at h
  rcases mem_pyReplace h with h | h; swap; · simp at h
  rcases mem_pyReplace h with h | h; swap; · simp at h
  exact not_mem_removeFFFD _ h

theorem not_mem_cleanPipe_endash (s : List Char) : '–' ∉ cleanPipe s := by
  intro h
  rw [cleanPipe] at h
  have h := pyStrip_subset _ h
  rcases mem_pyReplace h with h | h
  · exact not_mem_pyReplace_single (by decide) _ h
  · simp at h

theorem not_mem_cleanPipe_emdash (s : List Char) : '—' ∉ cleanPipe s := by
  intro h
  rw [cleanPipe] at h
  exact not_mem_pyReplace_single (by decide) _ (pyStrip_subset _ h)

theorem dropWhile_idem {α : Type} (p : α → Bool) (l : List α) :
    List.dropWhile p (List.dropWhile p l) = List.dropWhile p l := by
  induction l with
  | nil => rfl
  | cons c cs ih =>
    rw [List.dropWhile_cons]
    split
    · exact ih
    · rw [List.dropWhile_cons]
      simp [*]

theorem head?_dropWhile {α : Type} (p : α → Bool) (l : List α) :
    ∀ c, (List.dropWhile p l).head? = some c → p c = false := by
  induction l with
  | nil => intro c h; simp at h
  | cons a as ih =>
    intro c h
    rw [List.dropWhile_cons] at h
    by_cases hp : p a = true
    · rw [if_pos hp] at h
      exact ih c h
    · rw [if_neg hp] at h
      simp only [List.head?_cons, Option.some.injEq] at h
      subst h
      exact Bool.not_eq_true _ ▸ hp

theorem dropWhile_eq_self_of_head {α : Type} (p : α → Bool) (l : List α)
    (h : ∀ c, l.head? = some c → p c = false) : List.dropWhile p l = l := by
  cases l with
  | nil => rfl
  | cons a as =>
    rw [List.dropWhile_cons, if_neg]
    simp [h a rfl]

theorem dropWhile_suffix {α : Type} (p : α → Bool) :
    ∀ l : List α, List.dropWhile p l <:+ l := by
  intro l
  induction l with
  | nil => exact List.suffix_rfl
  | cons c cs ih =>
    rw [List.dropWhile_cons]
    split
    · exact ih.trans (List.suffix_cons c cs)
    · exact List.suffix_rfl

theorem head?_of_prefix {α : Type} {l1 l2 : List α} (h : l1 <+: l2)
    (hne : l1 ≠ []) : l1.head? = l2.head? := by
  obtain ⟨t, rfl⟩ := h
  exact (List.head?_append_of_ne_nil l1 hne).symm

/-- The right-hand strip (the `reverse / dropWhile / reverse` part of
`pyStrip`); proof infrastructure only. -/
def dropEnd (s : List Char) : List Char := (stripLeft s.reverse).reverse

theorem pyStrip_eq_dropEnd (s : List Char) :
    pyStrip s = dropEnd (stripLeft s) := rfl

theorem dropEnd_prefix_self (s : List Char) : dropEnd s <+: s := by
  rw [← List.reverse_suffix]
  rw [dropEnd, List.reverse_reverse]
  exact dropWhile_suffix isPySpace s.reverse

theorem stripLeft_dropEnd {s : List Char} (h : stripLeft s = s) :
    stripLeft (dropEnd s) = dropEnd s := by
  apply dropWhile_eq_self_of_head
  intro c hc
  have hne : dropEnd s ≠ [] := by
    intro he
    rw [he] at hc
    simp at hc
  have hh := head?_of_prefix (dropEnd_prefix_self s) hne
  rw [hc] at hh
  apply head?_dropWhile isPySpace s
  have h' : List.dropWhile isPySpace s = s := h
  rw [h']
  exact hh.symm

theorem dropEnd_idem (s : List Char) : dropEnd (dropEnd s) = dropEnd s := by
  simp only [dropEnd, stripLeft, List.reverse_reverse]
  rw [dropWhile_idem]

theorem stripLeft_idem (s : List Char) : stripLeft (stripLeft s) = stripLeft s :=
  dropWhile_idem isPySpace s

theorem pyStrip_idem (s : List Char) : pyStrip (pyStrip s) = pyStrip s := by
  rw [pyStrip_eq_dropEnd s, pyStrip_eq_dropEnd]
  rw [stripLeft_dropEnd (stripLeft_idem s)]
  exact dropEnd_idem _

theorem pyStrip_cleanPipe (s : List Char) :
    pyStrip (cleanPipe s) = cleanPipe s := by
  rw [cleanPipe]
  exact pyStrip_idem _

theorem mk_toList (s : String) : String.mk s.toList = s := rfl

theorem toList_mk (l : List Char) : (String.mk l).toList = l := rfl

/-- C2 counterexample: removing a banned word can create a fresh occurrence
of it, so cleaning is not idempotent; on "ConConfidentialfidential" the
first pass leaves "Confidential" and the second pass deletes it. -/
theorem clean_text_not_idempotent :
    clean_text "ConConfidentialfidential" = "Confidential" ∧
    clean_text (clean_text "ConConfidentialfidential") = "" ∧
    clean_text (clean_text "ConConfidentialfidential") ≠
      clean_text "ConConfidentialfidential" := by
  decide

/-- C2 amended: cleaning the empty string yields the empty string, and
cleaning is idempotent on every input whose cleaned text is a fixed point
of each rewriting pass (no page-footer match, no Confidential/Proprietary
occurrence, no collapsible whitespace, no doubled quote or doubled
apostrophe); in general a pass can create new work for an earlier pass, so
unconditional idempotence fails. -/
theorem clean_text_idem_amended :
    clean_text "" = "" ∧
    ∀ t : String,
      removePage (clean_text t).toList = (clean_text t).toList →
      removeConf (clean_text t).toList = (clean_text t).toList →
      collapseWs (clean_text t).toList = (clean_text t).toList →
      pyReplace ['"', '"'] ['"'] (clean_text t).toList = (clean_text t).toList →
      pyReplace ['\'', '\''] ['\''] (clean_text t).toList = (clean_text t).toList →
      clean_text (clean_text t) = clean_text t := by
  refine ⟨rfl, fun t h1 h2 h3 h4 h5 => ?_⟩
  by_cases hz : clean_text t = ""
  · rw [hz]
    rfl
  · have ht : ¬ (t = "") := by
      intro he
      rw [clean_text, if_pos he] at hz
      exact hz rfl
    have hl : (clean_text t).toList = cleanPipe t.toList := by
      rw [clean_text, if_neg ht]
      exact toList_mk _
    have hnf : removeFFFD (clean_text t).toList = (clean_text t).toList := by
      apply removeFFFD_of_not_mem
      rw [hl]
      exact not_mem_cleanPipe_fffd _
    have hnd1 : ('\u2013' : Char) ∉ (clean_text t).toList := by
      rw [hl]
      exact not_mem_cleanPipe_endash _
    have hnd2 : ('\u2014' : Char) ∉ (clean_text t).toList := by
      rw [hl]
      exact not_mem_cleanPipe_emdash _
    have hgoal : cleanPipe (clean_text t).toList = (clean_text t).toList := by
      rw [cleanPipe, h1, h2, h3, hnf]
      rw [pyReplace_single_id '\x22']
      rw [h4, h4]
      rw [pyReplace_single_id '\x27']
      rw [h5, h5]
      rw [pyReplace_not_mem_id _ hnd1, pyReplace_not_mem_id _ hnd2]
      rw [hl]
      exact pyStrip_cleanPipe _
    conv_lhs => rw [clean_text]
    rw [if_neg hz, hgoal, mk_toList]

theorem clean_text_idem_amended_witness :
    clean_text (clean_text "Hello   world") = clean_text "Hello   world" :=
  clean_text_idem_amended.2 "Hello   world" (by decide) (by decide) (by decide)
    (by decide) (by decide)

/-! ### Pattern extraction lemmas (C8) -/

theorem mem_dedupFirstAux {α : Type} [DecidableEq α] (x : α) :
    ∀ (l seen : List α), x ∈ dedupFirstAux seen l ↔ (x ∈ l ∧ x ∉ seen) := by
  intro l
  induction l with
  | nil => intro seen; simp [dedupFirstAux]
  | cons a as ih =>
    intro seen
    rw [dedupFirstAux]
    split
    · rename_i hmem
      rw [ih]
      constructor
      · rintro ⟨hx, hns⟩
        exact ⟨List.mem_cons_of_mem _ hx, hns⟩
      · rintro ⟨hx, hns⟩
        rcases List.mem_cons.mp hx with rfl | hx
        · exact absurd hmem hns
        · exact ⟨hx, hns⟩
    · rename_i hnm
      constructor
      · intro hx
        rcases List.mem_cons.mp hx with rfl | hx
        · exact ⟨List.mem_cons_self _ _, hnm⟩
        · rw [ih] at hx
          exact ⟨List.mem_cons_of_mem _ hx.1,
                 fun hs => hx.2 (List.mem_cons_of_mem _ hs)⟩
      · rintro ⟨hx, hns⟩
        rcases List.mem_cons.mp hx with rfl | hx
        · exact List.mem_cons_self _ _
        · by_cases hxa : x = a
          · subst hxa
            exact List.mem_cons_self _ _
          · apply List.mem_cons_of_mem
            rw [ih]
            exact ⟨hx, fun hs => (List.mem_cons.mp hs).elim hxa hns⟩

theorem mem_dedupFirst {α : Type} [DecidableEq α] (x : α) (l : List α) :
    x ∈ dedupFirst l ↔ x ∈ l := by
  rw [dedupFirst, mem_dedupFirstAux]
  simp

theorem nodup_dedupFirstAux {α : Type} [DecidableEq α] :
    ∀ (l seen : List α), (dedupFirstAux seen l).Nodup := by
  intro l
  induction l with
  | nil => intro seen; simp [dedupFirstAux]
  | cons a as ih =>
    intro seen
    rw [dedupFirstAux]
    split
    · exact ih seen
    · refine List.nodup_cons.mpr ⟨?_, ih (a :: seen)⟩
      intro hmem
      rw [mem_dedupFirstAux] at hmem
      exact hmem.2 (List.mem_cons_self _ _)

theorem nodup_dedupFirst {α : Type} [DecidableEq α] (l : List α) :
    (dedupFirst l).Nodup :=
  nodup_dedupFirstAux l []

/-- The rule table `extract_with_patterns` selects: the requested type's
table when the type is known, `general`'s table otherwise. -/
def selTable (dt : String) : List (String × Pat) :=
  (patternsTable.lookup (if (patternsTable.lookup dt).isSome then dt
                         else "general")).getD []

theorem extract_with_patterns_eq (text : List Char) (dt : String) :
    extract_with_patterns text dt =
      (selTable dt).filterMap (fun fp =>
        let ms := reFindall true fp.2.re fp.2.groups text
        if ms = [] then none else some (fp.1, dedupFirst ms)) := rfl

theorem lookup_filterMap_none (text : List Char) (field : String) :
    ∀ tbl : List (String × Pat), field ∉ tbl.map Prod.fst →
      (tbl.filterMap (fun fp =>
        let ms := reFindall true fp.2.re fp.2.groups text
        if ms = [] then none else some (fp.1, dedupFirst ms))).lookup field = none := by
  intro tbl
  induction tbl with
  | nil => intro _; rfl
  | cons fp rest ih =>
    intro hnm
    have hne : ¬ (field = fp.1) := fun he => hnm (by simp [he])
    have hrest : field ∉ rest.map Prod.fst := fun hm => hnm (by simp [hm])
    rw [List.filterMap_cons]
    split
    · exact ih hrest
    · rename_i v hv
      have hv1 : v.1 = fp.1 := by
        simp only at hv
        split at hv
        · exact absurd hv (by simp)
        · cases hv
          rfl
      obtain ⟨v1, v2⟩ := v
      simp only at hv1
      subst hv1
      rw [List.lookup_cons]
      rw [show (field == fp.1) = false from by simp [hne]]
      exact ih hrest

theorem lookup_filterMap_table (text : List Char) (field : String) :
    ∀ tbl : List (String × Pat), (tbl.map Prod.fst).Nodup →
      ∀ p, tbl.lookup field = some p →
        (tbl.filterMap (fun fp =>
          let ms := reFindall true fp.2.re fp.2.groups text
          if ms = [] then none else some (fp.1, dedupFirst ms))).lookup field =
        (if reFindall true p.re p.groups text = [] then none
         else some (dedupFirst (reFindall true p.re p.groups text))) := by
  intro tbl
  induction tbl with
  | nil =>
    intro _ p hp
    simp [List.lookup] at hp
  | cons fp rest ih =>
    intro hnd p hp
    have hnd1 : fp.1 ∉ rest.map Prod.fst := (List.nodup_cons.mp hnd).1
    have hnd2 : (rest.map Prod.fst).Nodup := (List.nodup_cons.mp hnd).2
    obtain ⟨f1, pv⟩ := fp
    simp only at hnd1 hnd2
    rw [List.lookup_cons] at hp
    by_cases hfe : field = f1
    · rw [show (field == f1) = true from by simp [hfe]] at hp
      cases hp
      rw [List.filterMap_cons]
      split
      · rename_i hnone
        simp only at hnone
        split at hnone
        · rename_i hms
          rw [if_pos hms]
          subst hfe
          exact lookup_filterMap_none text _ rest hnd1
        · exact absurd hnone (by simp)
      · rename_i v hv
        simp only at hv
        split at hv
        · exact absurd hv (by simp)
        · rename_i hms
          cases hv
          rw [if_neg hms]
          rw [List.lookup_cons]
          rw [show (field == f1) = true from by simp [hfe]]
    · rw [show (field == f1) = false from by simp [hfe]] at hp
      rw [List.filterMap_cons]
      split
      · exact ih hnd2 p hp
      · rename_i v hv
        simp only at hv
        split at hv
        · exact absurd hv (by simp)
        · cases hv
          rw [List.lookup_cons]
          rw [show (field == f1) = false from by simp [hfe]]
          exact ih hnd2 p hp

theorem selTable_keys_nodup (dt : String) : ((selTable dt).map Prod.fst).Nodup := by
  by_cases h1 : dt = "invoice"
  · subst h1; decide
  · by_cases h2 : dt = "receipt"
    · subst h2; decide
    · by_cases h3 : dt = "contract"
      · subst h3; decide
      · by_cases h4 : dt = "contact"
        · subst h4; decide
        · by_cases h5 : dt = "general"
          · subst h5; decide
          · have hnone : patternsTable.lookup dt = none := by
              rw [patternsTable]
              rw [List.lookup_cons, show (dt == "invoice") = false from by simp [h1]]
              rw [List.lookup_cons, show (dt == "receipt") = false from by simp [h2]]
              rw [List.lookup_cons, show (dt == "contract") = false from by simp [h3]]
              rw [List.lookup_cons, show (dt == "contact") = false from by simp [h4]]
              rw [List.lookup_cons, show (dt == "general") = false from by simp [h5]]
              rfl
            rw [selTable, hnone]
            simp only [Option.isSome_none, Bool.false_eq_true, if_false]
            decide

/-- C8: a document type outside the table falls back to `general`; and for
every field of the selected rule table, the field appears in the output
exactly when its regex has at least one (case-insensitive) match in the
text, the value list then being the matches with each distinct value
exactly once. -/
theorem extract_with_patterns_spec :
    (∀ (text : List Char) (dt : String),
        dt ∉ (["invoice", "receipt", "contract", "contact", "general"] : List String) →
        extract_with_patterns text dt = extract_with_patterns text "general") ∧
    (∀ (text : List Char) (dt field : String) (p : Pat),
        (selTable dt).lookup field = some p →
        (((extract_with_patterns text dt).lookup field).isSome ↔
          reFindall true p.re p.groups text ≠ []) ∧
        (∀ vs, (extract_with_patterns text dt).lookup field = some vs →
          vs.Nodup ∧ ∀ v, (v ∈ vs ↔ v ∈ reFindall true p.re p.groups text))) := by
  constructor
  · intro text dt hdt
    simp only [List.mem_cons, List.not_mem_nil, or_false, not_or] at hdt
    obtain ⟨h1, h2, h3, h4, h5⟩ := hdt
    have hnone : patternsTable.lookup dt = none := by
      rw [patternsTable]
      rw [List.lookup_cons, show (dt == "invoice") = false from by simp [h1]]
      rw [List.lookup_cons, show (dt == "receipt") = false from by simp [h2]]
      rw [List.lookup_cons, show (dt == "contract") = false from by simp [h3]]
      rw [List.lookup_cons, show (dt == "contact") = false from by simp [h4]]
      rw [List.lookup_cons, show (dt == "general") = false from by simp [h5]]
      rfl
    rw [extract_with_patterns, extract_with_patterns, hnone]
    rfl
  · intro text dt field p hp
    have hkey := lookup_filterMap_table text field (selTable dt)
      (selTable_keys_nodup dt) p hp
    rw [← extract_with_patterns_eq] at hkey
    constructor
    · rw [hkey]
      split
      · rename_i hms
        simp [hms]
      · rename_i hms
        simp [hms]
    · intro vs hvs
      rw [hkey] at hvs
      split at hvs
      · exact absurd hvs (by simp)
      · cases hvs
        exact ⟨nodup_dedupFirst _, fun v => mem_dedupFirst v _⟩

theorem extract_with_patterns_spec_witness :
    extract_with_patterns "5% off".toList "mystery" =
      extract_with_patterns "5% off".toList "general" ∧
    (((extract_with_patterns "5% off".toList "mystery").lookup "percentage").isSome ↔
      reFindall true percentBody 1 "5% off".toList ≠ []) :=
  ⟨extract_with_patterns_spec.1 "5% off".toList "mystery" (by decide),
   (extract_with_patterns_spec.2 "5% off".toList "mystery" "percentage"
      ⟨1, percentBody⟩ rfl).1⟩

/-! ### The orchestrator boundary (C1) -/

theorem except_bind_ok {α β : Type} {x : Except String α} {f : α → Except String β}
    {b : β} (h : x.bind f = .ok b) : ∃ a, x = .ok a ∧ f a = .ok b := by
  cases x with
  | error e => simp [Except.bind] at h
  | ok a => exact ⟨a, rfl, by simpa [Except.bind] using h⟩

theorem parseBody_ok_cases {V C L : Type} (env : ParserEnv V C L)
    (st : ClassifierState V C L) (fp dt : String) (uml : Bool) :
    ∀ r, parseBody env st fp dt uml = .ok r → r = noTextResult ∨ r.success = true := by
  intro r h
  simp only [parseBody] at h
  by_cases hraw :
      (if isImagePath fp then env.extractImage fp else env.extractPdf fp) = ""
  · rw [if_pos hraw] at h
    simp only [pure, Except.pure] at h
    cases h
    exact Or.inl rfl
  · rw [if_neg hraw] at h
    obtain ⟨a1, h1, h⟩ := except_bind_ok h
    obtain ⟨a2, h2, h⟩ := except_bind_ok h
    obtain ⟨a3, h3, h⟩ := except_bind_ok h
    obtain ⟨a4, h4, h⟩ := except_bind_ok h
    simp only [pure, Except.pure] at h
    cases h
    exact Or.inr rfl

/-- C1: `parse_document` never propagates an exception: every call returns
a result that either succeeds or carries an error message; a file yielding
no text gives the dedicated failure result; and any exception raised inside
the try body (steps 3-8) is converted into a failure result carrying the
exception's message. -/
theorem parse_document_no_raise {V C L : Type} (env : ParserEnv V C L)
    (st : ClassifierState V C L) (fp dt : String) (uml : Bool) :
    ((parse_document env st fp dt uml).success = true ∨
      ((parse_document env st fp dt uml).success = false ∧
       (parse_document env st fp dt uml).error ≠ none)) ∧
    ((if isImagePath fp then env.extractImage fp else env.extractPdf fp) = "" →
      parse_document env st fp dt uml = noTextResult) ∧
    (∀ e, parseBody env st fp dt uml = .error e →
      parse_document env st fp dt uml = errorResult e env.now) := by
  refine ⟨?_, ?_, ?_⟩
  · cases hb : parseBody env st fp dt uml with
    | ok r =>
      have hr := parseBody_ok_cases env st fp dt uml r hb
      rw [parse_document, hb]
      rcases hr with rfl | hs
      · exact Or.inr ⟨rfl, by simp [noTextResult]⟩
      · exact Or.inl hs
    | error e =>
      rw [parse_document, hb]
      exact Or.inr ⟨rfl, by simp [errorResult]⟩
  · intro hraw
    have hb : parseBody env st fp dt uml = .ok noTextResult := by
      simp only [parseBody]
      rw [if_pos hraw]
      rfl
    rw [parse_document, hb]
  · intro e he
    rw [parse_document, he]

def parseEnv0 : ParserEnv Nat Nat Nat :=
  { extractImage := fun _ => ""
    extractPdf := fun _ => ""
    nlp := fun _ => .ok []
    mlEval := fun _ _ _ _ => .ok "general"
    phoneParse := fun _ => .error "parse"
    vecFeatures := fun _ => 0
    classes := fun _ => []
    now := "T0" }

theorem parse_document_no_raise_witness :
    parse_document parseEnv0 untrainedSt "doc.pdf" "general" false = noTextResult :=
  (parse_document_no_raise parseEnv0 untrainedSt "doc.pdf" "general" false).2.1
    (by decide)

/-! ### The evaluator (C6) -/

/-- The number of labeled documents with a truthy label and path whose
`use_ml` parse prediction equals the true label. -/
def countCorrect {V C L : Type} (env : ParserEnv V C L) (st : ClassifierState V C L)
    (docs : List LabeledDoc) : Nat :=
  docs.countP (fun d =>
    truthy d.true_document_type && truthy d.file_path &&
    decide ((parse_document env st (d.file_path.getD "") "general" true).document_type
      = d.true_document_type))

theorem evalFold_fst {V C L : Type} (env : ParserEnv V C L)
    (st : ClassifierState V C L) :
    ∀ (docs : List LabeledDoc) (c0 : Nat) (m0 : List (String × Nat)),
      (docs.foldl (evalStep env st) (c0, m0)).1 = c0 + countCorrect env st docs := by
  intro docs
  induction docs with
  | nil =>
    intro c0 m0
    simp [countCorrect]
  | cons d ds ih =>
    intro c0 m0
    rw [List.foldl_cons]
    rw [countCorrect, List.countP_cons]
    by_cases hv : (truthy d.true_document_type && truthy d.file_path) = true
    · by_cases heq :
        (parse_document env st (d.file_path.getD "") "general" true).document_type
          = d.true_document_type
      · have hstep : evalStep env st (c0, m0) d =
            (c0 + 1, bumpKey m0 (optLabel d.true_document_type ++ "_" ++
              optLabel (parse_document env st (d.file_path.getD "") "general"
                true).document_type)) := by
          rw [evalStep, if_pos hv]
          simp only [heq, if_pos]
        rw [hstep, ih]
        rw [countCorrect]
        simp [hv, heq]
        omega
      · have hstep : evalStep env st (c0, m0) d =
            (c0, bumpKey m0 (optLabel d.true_document_type ++ "_" ++
              optLabel (parse_document env st (d.file_path.getD "") "general"
                true).document_type)) := by
          rw [evalStep, if_pos hv]
          simp only [heq, if_false, if_neg]
        rw [hstep, ih]
        rw [countCorrect]
        simp [hv, heq]
    · have hstep : evalStep env st (c0, m0) d = (c0, m0) := by
        rw [evalStep, if_neg (by simpa using hv)]
      rw [hstep, ih]
      rw [countCorrect]
      simp only [Bool.and_eq_true] at hv ⊢
      rw [if_neg (fun hc => hv hc.1)]
      omega

/-- The scenario environment: three one-letter documents, predicted
invoice/receipt/receipt. -/
def evalEnvW : ParserEnv Nat Nat Nat :=
  { extractImage := fun _ => ""
    extractPdf := fun p => if p = "a.pdf" then "a" else if p = "b.pdf" then "b" else "c"
    nlp := fun _ => .ok []
    mlEval := fun _ _ _ t => .ok (if t = "a" then "invoice" else "receipt")
    phoneParse := fun _ => .error "parse"
    vecFeatures := fun _ => 7
    classes := fun _ => ["contact", "invoice", "receipt"]
    now := "T1" }

/-- Three labeled documents of which exactly two are predicted correctly. -/
def evalDocsW : List LabeledDoc :=
  [⟨some "invoice", some "a.pdf"⟩, ⟨some "invoice", some "b.pdf"⟩,
   ⟨some "receipt", some "c.pdf"⟩]

theorem pyRound2_two_thirds : pyRound2 ((2 : ℚ) / 3 * 100) = 6667 / 100 := by
  have h1 : ((2 : ℚ) / 3 * 100) * 100 = 20000 / 3 := by norm_num
  rw [pyRound2, h1]
  have hf : ⌊(20000 : ℚ) / 3⌋ = 6666 := by
    rw [Int.floor_eq_iff]
    constructor <;> norm_num
  have h2 : roundHalfEven ((20000 : ℚ) / 3) = 6667 := by
    rw [roundHalfEven, hf]
    norm_num
  rw [h2]
  norm_num

/-- C6: for every trained classifier, `evaluate_model` returns accuracy
equal to correct/total×100 rounded to two decimals (0 for an empty list,
with no division error), with `correct_predictions` the number of matching
predictions and `total_documents` the length of the input list; on the
three-document scenario with two correct predictions it returns
accuracy 66.67, correct 2, total 3. -/
theorem evaluate_model_spec :
    (∀ (V C L : Type) (env : ParserEnv V C L) (st : ClassifierState V C L)
        (docs : List LabeledDoc), st.is_trained = true →
      ∃ r, evaluate_model env st docs = .ok r ∧
        r.total_documents = docs.length ∧
        r.correct_predictions = countCorrect env st docs ∧
        r.accuracy = (if docs.length = 0 then (0 : ℚ)
          else pyRound2 ((countCorrect env st docs : ℚ) / (docs.length : ℚ) * 100))) ∧
    (∃ r, evaluate_model evalEnvW trainedSt evalDocsW = .ok r ∧
      r.correct_predictions = 2 ∧ r.total_documents = 3 ∧
      r.accuracy = 6667 / 100) := by
  have hmain : ∀ (V C L : Type) (env : ParserEnv V C L) (st : ClassifierState V C L)
      (docs : List LabeledDoc), st.is_trained = true →
      ∃ r, evaluate_model env st docs = .ok r ∧
        r.total_documents = docs.length ∧
        r.correct_predictions = countCorrect env st docs ∧
        r.accuracy = (if docs.length = 0 then (0 : ℚ)
          else pyRound2 ((countCorrect env st docs : ℚ) / (docs.length : ℚ) * 100)) := by
    intro V C L env st docs htr
    rw [evaluate_model, htr]
    refine ⟨_, rfl, rfl, ?_, ?_⟩
    · simpa using evalFold_fst env st docs 0 []
    · rcases Nat.eq_zero_or_pos docs.length with hz | hpos
      · simp [hz]
      · rw [if_pos (by omega), if_neg (by omega)]
        have hc : (docs.foldl (evalStep env st) (0, [])).1 =
            countCorrect env st docs := by
          simpa using evalFold_fst env st docs 0 []
        rw [hc]
  refine ⟨hmain, ?_⟩
  obtain ⟨r, he, ht, hc, ha⟩ := hmain Nat Nat Nat evalEnvW trainedSt evalDocsW rfl
  have hcc : countCorrect evalEnvW trainedSt evalDocsW = 2 := by decide
  have hlen : evalDocsW.length = 3 := rfl
  refine ⟨r, he, by rw [hc, hcc], by rw [ht, hlen], ?_⟩
  rw [ha, hcc, hlen]
  rw [if_neg (by norm_num)]
  have : ((2 : ℕ) : ℚ) / ((3 : ℕ) : ℚ) * 100 = (2 : ℚ) / 3 * 100 := by push_cast; ring
  rw [this, pyRound2_two_thirds]

theorem evaluate_model_spec_witness :
    ∃ r, evaluate_model evalEnvW trainedSt ([] : List LabeledDoc) = .ok r ∧
      r.total_documents = 0 ∧
      r.correct_predictions = countCorrect evalEnvW trainedSt [] ∧
      r.accuracy = (if (0 : Nat) = 0 then (0 : ℚ)
        else pyRound2 ((countCorrect evalEnvW trainedSt [] : ℚ) / (0 : ℚ) * 100)) :=
  evaluate_model_spec.1 Nat Nat Nat evalEnvW trainedSt [] rfl

end DocParse
